import Mathlib

/-!
Shallow embedding of the `NotesStorage` core of the mcp-notes server
(`src/server.py`).  The JSON document is modelled as a typed `Doc`
(schema + notes); each mutating operation returns the resulting
document, a flag recording whether `_save` was called, and the
Python-level result (`Except String` mirrors `ValueError` messages).
Nondeterministic external inputs (uuid, `datetime.utcnow()`) are
passed as explicit string parameters.
-/

structure TagSchema where
  category : List String
  type : List String
  priority : List String
  topics : List String
  deriving Repr, DecidableEq

structure Tags where
  category : String
  type : String
  priority : String
  topics : List String
  deriving Repr, DecidableEq

structure Note where
  id : String
  title : String
  content : String
  tags : Tags
  created : String
  updated : String
  deriving Repr, DecidableEq

structure Doc where
  tag_schema : TagSchema
  notes : List Note
  deriving Repr, DecidableEq

/-- Result of a mutating call: the in-memory document after the call,
whether `_save` was invoked, and the returned value or error message. -/
structure OpResult (α : Type) where
  doc : Doc
  saved : Bool
  result : Except String α
  deriving Repr

/-- The seed document built by `_load` when no file exists. -/
def seedDoc : Doc :=
  { tag_schema :=
      { category := ["work", "personal", "learning"]
        type := ["project", "idea", "reference", "todo", "note"]
        priority := ["active", "soon", "someday", "eventually", "maybe", "not-actionable"]
        topics := ["mcp", "ai", "coding", "design"] }
    notes := [] }

def notFoundMsg (note_id : String) : String :=
  "Note with ID \x27" ++ note_id ++ "\x27 not found"

def invalidCategoryMsg (s : TagSchema) (c : String) : String :=
  "Invalid category \x27" ++ c ++ "\x27. Must be one of: " ++ String.intercalate ", " s.category

def invalidTypeMsg (s : TagSchema) (t : String) : String :=
  "Invalid type \x27" ++ t ++ "\x27. Must be one of: " ++ String.intercalate ", " s.type

def invalidPriorityMsg (s : TagSchema) (p : String) : String :=
  "Invalid priority \x27" ++ p ++ "\x27. Must be one of: " ++ String.intercalate ", " s.priority

def invalidTopicMsg (s : TagSchema) (t : String) : String :=
  "Invalid topic \x27" ++ t ++ "\x27. Must be one of: " ++ String.intercalate ", " s.topics

def invalidDimensionMsg (dimension : String) : String :=
  "Invalid dimension \x27" ++ dimension ++ "\x27. Must be one of: " ++
    String.intercalate ", " ["category", "type", "priority", "topics"]

/-- The `for topic in topics` loop of `validate_tags`: first topic not in
the schema wins. -/
def checkTopics (s : TagSchema) : List String → Bool × String
  | [] => (true, "")
  | t :: ts => if t ∈ s.topics then checkTopics s ts else (false, invalidTopicMsg s t)

/-- `NotesStorage.validate_tags`: early-return chain category, type,
priority, topics; `None` fields are skipped. -/
def validate_tags (s : TagSchema) (category type_tag priority : Option String)
    (topics : Option (List String)) : Bool × String :=
  let afterPriority :=
    match topics with
    | none => (true, "")
    | some ts => checkTopics s ts
  let afterType :=
    match priority with
    | none => afterPriority
    | some p => if p ∈ s.priority then afterPriority else (false, invalidPriorityMsg s p)
  let afterCategory :=
    match type_tag with
    | none => afterType
    | some t => if t ∈ s.type then afterType else (false, invalidTypeMsg s t)
  match category with
  | none => afterCategory
  | some c => if c ∈ s.category then afterCategory else (false, invalidCategoryMsg s c)

/-- One step of the `for tag in tags` loop of `add_tags_to_schema`. -/
def addTag (xs : List String) (t : String) : List String :=
  if t ∈ xs then xs else xs ++ [t]

def addTagList (xs : List String) (tags : List String) : List String :=
  tags.foldl addTag xs

/-- `NotesStorage.add_tags_to_schema`. -/
def add_tags_to_schema (d : Doc) (dimension : String) (tags : List String) :
    OpResult TagSchema :=
  if dimension ∈ ["category", "type", "priority", "topics"] then
    let s := d.tag_schema
    let s' :=
      if dimension = "category" then { s with category := addTagList s.category tags }
      else if dimension = "type" then { s with type := addTagList s.type tags }
      else if dimension = "priority" then { s with priority := addTagList s.priority tags }
      else { s with topics := addTagList s.topics tags }
    { doc := { d with tag_schema := s' }, saved := true, result := .ok s' }
  else
    { doc := d, saved := false, result := .error (invalidDimensionMsg dimension) }

/-- `NotesStorage.create_note`; `uuid` and `now` are explicit inputs. -/
def create_note (d : Doc) (title content category type_tag priority : String)
    (topics : Option (List String)) (uuid now : String) : OpResult Note :=
  let v := validate_tags d.tag_schema (some category) (some type_tag) (some priority) topics
  if v.1 then
    let note : Note :=
      { id := uuid, title := title, content := content
        tags := { category := category, type := type_tag, priority := priority
                  topics := topics.getD [] }
        created := now, updated := now }
    { doc := { d with notes := d.notes ++ [note] }, saved := true, result := .ok note }
  else
    { doc := d, saved := false, result := .error v.2 }

/-- `NotesStorage.read_note`: linear scan. -/
def read_note (d : Doc) (note_id : String) : Except String Note :=
  match d.notes.find? (fun n => n.id == note_id) with
  | some n => .ok n
  | none => .error (notFoundMsg note_id)

/-- Replace the first note whose id matches (Python mutates that note
in place). -/
def replaceFirst : List Note → String → Note → List Note
  | [], _, _ => []
  | n :: ns, note_id, n' =>
      if n.id == note_id then n' :: ns else n :: replaceFirst ns note_id n'

/-- `NotesStorage.update_note`: find first, validate, overwrite provided
fields, stamp `updated := now`. -/
def update_note (d : Doc) (note_id : String)
    (title content category type_tag priority : Option String)
    (topics : Option (List String)) (now : String) : OpResult Note :=
  match d.notes.find? (fun n => n.id == note_id) with
  | none => { doc := d, saved := false, result := .error (notFoundMsg note_id) }
  | some note =>
    let v := validate_tags d.tag_schema category type_tag priority topics
    if v.1 then
      let note' : Note :=
        { id := note.id
          title := title.getD note.title
          content := content.getD note.content
          tags :=
            { category := category.getD note.tags.category
              type := type_tag.getD note.tags.type
              priority := priority.getD note.tags.priority
              topics := topics.getD note.tags.topics }
          created := note.created
          updated := now }
      { doc := { d with notes := replaceFirst d.notes note_id note' }
        saved := true, result := .ok note' }
    else
      { doc := d, saved := false, result := .error v.2 }

/-- Remove the first note whose id matches (`list.pop(i)` at the first
match). -/
def removeFirst : List Note → String → List Note
  | [], _ => []
  | n :: ns, note_id => if n.id == note_id then ns else n :: removeFirst ns note_id

/-- `NotesStorage.delete_note`. -/
def delete_note (d : Doc) (note_id : String) : OpResult Bool :=
  if d.notes.any (fun n => n.id == note_id) then
    { doc := { d with notes := removeFirst d.notes note_id }, saved := true, result := .ok true }
  else
    { doc := d, saved := false, result := .error (notFoundMsg note_id) }

/-- Bool test that `needle` is a prefix of `hay` (char lists). -/
def hasPref : List Char → List Char → Bool
  | [], _ => true
  | _ :: _, [] => false
  | a :: as, b :: bs => a == b && hasPref as bs

/-- Bool test that `needle` occurs contiguously inside `hay`
(Python `needle in hay` on strings). -/
def hasSub : List Char → List Char → Bool
  | hay, needle =>
    if hasPref needle hay then true
    else
      match hay with
      | [] => false
      | _ :: t => hasSub t needle

/-- The per-note filter body of `find_notes` (the chain of `continue`
checks). -/
def noteMatches (n : Note) (category type_tag priority : Option String)
    (topics : Option (List String))
    (title_contains created_after created_before updated_after updated_before :
      Option String) : Bool :=
  (match category with
   | some c => n.tags.category == c
   | none => true) &&
  (match type_tag with
   | some t => n.tags.type == t
   | none => true) &&
  (match priority with
   | some p => n.tags.priority == p
   | none => true) &&
  (match topics with
   | some ts => ts.any (fun t => n.tags.topics.contains t)
   | none => true) &&
  (match title_contains with
   | some s => hasSub n.title.toLower.toList s.toLower.toList
   | none => true) &&
  (match created_after with
   | some b => !decide (n.created < b)
   | none => true) &&
  (match created_before with
   | some b => !decide (n.created > b)
   | none => true) &&
  (match updated_after with
   | some b => !decide (n.updated < b)
   | none => true) &&
  (match updated_before with
   | some b => !decide (n.updated > b)
   | none => true)

/-- `NotesStorage.find_notes`: the loop appends every note passing all
checks, in document order. -/
def find_notes (d : Doc) (category type_tag priority : Option String)
    (topics : Option (List String))
    (title_contains created_after created_before updated_after updated_before :
      Option String) : List Note :=
  d.notes.filter (fun n =>
    noteMatches n category type_tag priority topics title_contains
      created_after created_before updated_after updated_before)

/-- `counts[dim][key] = counts[dim].get(key, 0) + 1` on an
insertion-ordered association list (Python dict). -/
def bump (m : List (String × Nat)) (k : String) : List (String × Nat) :=
  if m.any (fun p => p.1 == k) then
    m.map (fun p => if p.1 == k then (p.1, p.2 + 1) else p)
  else
    m ++ [(k, 1)]

structure TagCounts where
  category : List (String × Nat)
  type : List (String × Nat)
  priority : List (String × Nat)
  topics : List (String × Nat)
  deriving Repr, DecidableEq

/-- `NotesStorage.list_tags`: per note bump category, type, priority,
then every topic occurrence. -/
def list_tags (d : Doc) : TagCounts :=
  d.notes.foldl
    (fun acc n =>
      { category := bump acc.category n.tags.category
        type := bump acc.type n.tags.type
        priority := bump acc.priority n.tags.priority
        topics := n.tags.topics.foldl bump acc.topics })
    { category := [], type := [], priority := [], topics := [] }

/-- Document states reachable from the seed document by any sequence of
mutating operations (a failing call leaves `doc` unchanged, so failing
steps are included harmlessly). -/
inductive Reach : Doc → Prop where
  | seed : Reach seedDoc
  | create (d : Doc) (title content category type_tag priority : String)
      (topics : Option (List String)) (uuid now : String) :
      Reach d →
      Reach (create_note d title content category type_tag priority topics uuid now).doc
  | update (d : Doc) (note_id : String)
      (title content category type_tag priority : Option String)
      (topics : Option (List String)) (now : String) :
      Reach d →
      Reach (update_note d note_id title content category type_tag priority topics now).doc
  | del (d : Doc) (note_id : String) :
      Reach d → Reach (delete_note d note_id).doc
  | addTags (d : Doc) (dimension : String) (tags : List String) :
      Reach d → Reach (add_tags_to_schema d dimension tags).doc

/-- The schema-membership invariant of §3 of the spec: every stored
note's tag values belong to the current schema. -/
def NotesValid (d : Doc) : Prop :=
  ∀ n ∈ d.notes,
    n.tags.category ∈ d.tag_schema.category ∧
    n.tags.type ∈ d.tag_schema.type ∧
    n.tags.priority ∈ d.tag_schema.priority ∧
    ∀ t ∈ n.tags.topics, t ∈ d.tag_schema.topics

/-- C2: failure atomicity — whenever `create_note`, `update_note` or
`delete_note` returns an error, the in-memory document is unchanged and
`_save` was not called. -/
theorem mutation_failure_atomic :
    (∀ d title content category type_tag priority topics uuid now e,
      (create_note d title content category type_tag priority topics uuid now).result =
        .error e →
      (create_note d title content category type_tag priority topics uuid now).doc = d ∧
      (create_note d title content category type_tag priority topics uuid now).saved = false) ∧
    (∀ d note_id title content category type_tag priority topics now e,
      (update_note d note_id title content category type_tag priority topics now).result =
        .error e →
      (update_note d note_id title content category type_tag priority topics now).doc = d ∧
      (update_note d note_id title content category type_tag priority topics now).saved =
        false) ∧
    (∀ d note_id e,
      (delete_note d note_id).result = .error e →
      (delete_note d note_id).doc = d ∧ (delete_note d note_id).saved = false) := by
  refine ⟨?_, ?_, ?_⟩
  · intro d title content category type_tag priority topics uuid now e h
    by_cases hv :
        (validate_tags d.tag_schema (some category) (some type_tag) (some priority) topics).1
    · simp [create_note, hv] at h
    · simp [create_note, hv]
  · intro d note_id title content category type_tag priority topics now e h
    cases hf : d.notes.find? (fun n => n.id == note_id) with
    | none => simp [update_note, hf]
    | some note =>
      by_cases hv : (validate_tags d.tag_schema category type_tag priority topics).1
      · simp [update_note, hf, hv] at h
      · simp [update_note, hf, hv]
  · intro d note_id e h
    by_cases hc : d.notes.any (fun n => n.id == note_id)
    · simp [delete_note, hc] at h
    · simp [delete_note, hc]

/-- C2 witness: deleting a nonexistent id from the seed document leaves
it unchanged with no save. -/
theorem mutation_failure_atomic_witness :
    (delete_note seedDoc "missing").doc = seedDoc ∧
    (delete_note seedDoc "missing").saved = false :=
  mutation_failure_atomic.2.2 seedDoc "missing" (notFoundMsg "missing") rfl

/-- C10: `update_note` on an id carried by no stored note fails with the
not-found error (and leaves the document unsaved and unchanged), no
matter what tag fields were provided — the id lookup precedes tag
validation. -/
theorem update_not_found_precedence (d : Doc) (note_id : String)
    (title content category type_tag priority : Option String)
    (topics : Option (List String)) (now : String)
    (h : ∀ n ∈ d.notes, n.id ≠ note_id) :
    update_note d note_id title content category type_tag priority topics now =
      { doc := d, saved := false, result := .error (notFoundMsg note_id) } := by
  have hfind : d.notes.find? (fun n => n.id == note_id) = none := by
    rw [List.find?_eq_none]
    intro n hn
    simpa using h n hn
  simp only [update_note, hfind]

/-- C10 witness: with one stored note, updating a missing id with an
invalid category still yields the not-found error. -/
theorem update_not_found_precedence_witness :
    update_note
      { tag_schema := seedDoc.tag_schema
        notes := [{ id := "n1", title := "t", content := "c"
                    tags := { category := "work", type := "todo", priority := "active"
                              topics := [] }
                    created := "2024-01-01T00:00:00Z", updated := "2024-01-01T00:00:00Z" }] }
      "n2" none none (some "bogus-category") none none none "2024-01-02T00:00:00Z" =
      { doc := { tag_schema := seedDoc.tag_schema
                 notes := [{ id := "n1", title := "t", content := "c"
                             tags := { category := "work", type := "todo", priority := "active"
                                       topics := [] }
                             created := "2024-01-01T00:00:00Z"
                             updated := "2024-01-01T00:00:00Z" }] }
        saved := false, result := .error (notFoundMsg "n2") } :=
  update_not_found_precedence _ "n2" none none (some "bogus-category") none none none
    "2024-01-02T00:00:00Z" (by decide)

/-- C3: date filters are inclusive lexical string comparisons —
`created_after` keeps exactly `created >= bound`, `created_before`
keeps `created <= bound`, and the `updated` filters behave the same on
`updated`. -/
theorem find_notes_date_bounds :
    (∀ (d : Doc) (b : String) (n : Note),
      n ∈ find_notes d none none none none none (some b) none none none ↔
        n ∈ d.notes ∧ b ≤ n.created) ∧
    (∀ (d : Doc) (b : String) (n : Note),
      n ∈ find_notes d none none none none none none (some b) none none ↔
        n ∈ d.notes ∧ n.created ≤ b) ∧
    (∀ (d : Doc) (b : String) (n : Note),
      n ∈ find_notes d none none none none none none none (some b) none ↔
        n ∈ d.notes ∧ b ≤ n.updated) ∧
    (∀ (d : Doc) (b : String) (n : Note),
      n ∈ find_notes d none none none none none none none none (some b) ↔
        n ∈ d.notes ∧ n.updated ≤ b) := by
  refine ⟨?_, ?_, ?_, ?_⟩ <;> intro d b n <;>
    simp [find_notes, noteMatches, List.mem_filter, not_lt, gt_iff_lt]

/-- C6: filters combine with AND, topics match with OR, results keep the
original document order (sublist of `notes`), no filters returns every
note, and an empty result (never an error) occurs exactly when no note
matches. -/
theorem find_notes_combination :
    (∀ d : Doc,
      find_notes d none none none none none none none none none = d.notes) ∧
    (∀ (d : Doc) (category type_tag priority : Option String)
        (topics : Option (List String)) (title_contains ca cb ua ub : Option String),
      List.Sublist
        (find_notes d category type_tag priority topics title_contains ca cb ua ub)
        d.notes) ∧
    (∀ (d : Doc) (c t p : String) (ts : List String) (n : Note),
      n ∈ find_notes d (some c) (some t) (some p) (some ts) none none none none none ↔
        n ∈ d.notes ∧ n.tags.category = c ∧ n.tags.type = t ∧ n.tags.priority = p ∧
          ∃ x ∈ ts, x ∈ n.tags.topics) ∧
    (∀ (d : Doc) (category type_tag priority : Option String)
        (topics : Option (List String)) (title_contains ca cb ua ub : Option String),
      find_notes d category type_tag priority topics title_contains ca cb ua ub = [] ↔
        ∀ n ∈ d.notes,
          noteMatches n category type_tag priority topics title_contains ca cb ua ub =
            false) := by
  refine ⟨?_, ?_, ?_, ?_⟩
  · intro d
    simp [find_notes, noteMatches]
  · intro d category type_tag priority topics title_contains ca cb ua ub
    exact List.filter_sublist d.notes
  · intro d c t p ts n
    simp [find_notes, noteMatches, List.mem_filter]
    tauto
  · intro d category type_tag priority topics title_contains ca cb ua ub
    simp only [find_notes, List.filter_eq_nil_iff, Bool.not_eq_true]

theorem checkTopics_ok (s : TagSchema) (ts : List String) (h : ∀ x ∈ ts, x ∈ s.topics) :
    checkTopics s ts = (true, "") := by
  induction ts with
  | nil => rfl
  | cons t rest ih =>
    have ht : t ∈ s.topics := h t (by simp)
    simp only [checkTopics, if_pos ht]
    exact ih fun x hx => h x (by simp [hx])

theorem checkTopics_first_bad (s : TagSchema) (pre : List String) (t : String)
    (post : List String) (hpre : ∀ x ∈ pre, x ∈ s.topics) (ht : t ∉ s.topics) :
    checkTopics s (pre ++ t :: post) = (false, invalidTopicMsg s t) := by
  induction pre with
  | nil => simp [checkTopics, ht]
  | cons a rest ih =>
    have ha : a ∈ s.topics := hpre a (by simp)
    simp only [List.cons_append, checkTopics, if_pos ha]
    exact ih fun x hx => hpre x (by simp [hx])

/-- C7: `validate_tags` is a pure predicate on the schema; omitted
fields are accepted unconditionally; dimensions are checked in the
order category, type, priority, topics, the first failing value
determines the result, and the error message names that dimension and
enumerates its full valid set. -/
theorem validate_tags_spec :
    (∀ s : TagSchema, validate_tags s none none none none = (true, "")) ∧
    (∀ (s : TagSchema) (c : String) (type_tag priority : Option String)
        (topics : Option (List String)), c ∉ s.category →
      validate_tags s (some c) type_tag priority topics = (false, invalidCategoryMsg s c)) ∧
    (∀ (s : TagSchema) (category : Option String) (t : String) (priority : Option String)
        (topics : Option (List String)),
      (∀ c, category = some c → c ∈ s.category) → t ∉ s.type →
      validate_tags s category (some t) priority topics = (false, invalidTypeMsg s t)) ∧
    (∀ (s : TagSchema) (category type_tag : Option String) (p : String)
        (topics : Option (List String)),
      (∀ c, category = some c → c ∈ s.category) →
      (∀ t, type_tag = some t → t ∈ s.type) → p ∉ s.priority →
      validate_tags s category type_tag (some p) topics =
        (false, invalidPriorityMsg s p)) ∧
    (∀ (s : TagSchema) (category type_tag priority : Option String) (pre : List String)
        (t : String) (post : List String),
      (∀ c, category = some c → c ∈ s.category) →
      (∀ x, type_tag = some x → x ∈ s.type) →
      (∀ x, priority = some x → x ∈ s.priority) →
      (∀ x ∈ pre, x ∈ s.topics) → t ∉ s.topics →
      validate_tags s category type_tag priority (some (pre ++ t :: post)) =
        (false, invalidTopicMsg s t)) ∧
    (∀ (s : TagSchema) (category type_tag priority : Option String)
        (topics : Option (List String)),
      (∀ c, category = some c → c ∈ s.category) →
      (∀ x, type_tag = some x → x ∈ s.type) →
      (∀ x, priority = some x → x ∈ s.priority) →
      (∀ ts, topics = some ts → ∀ x ∈ ts, x ∈ s.topics) →
      validate_tags s category type_tag priority topics = (true, "")) := by
  refine ⟨?_, ?_, ?_, ?_, ?_, ?_⟩
  · intro s; rfl
  · intro s c type_tag priority topics h
    simp [validate_tags, h]
  · intro s category t priority topics hcat ht
    cases category <;> simp_all [validate_tags]
  · intro s category type_tag p topics hcat hty hp
    cases category <;> cases type_tag <;> simp_all [validate_tags]
  · intro s category type_tag priority pre t post hcat hty hp hpre ht
    have hck := checkTopics_first_bad s pre t post hpre ht
    cases category <;> cases type_tag <;> cases priority <;> simp_all [validate_tags]
  · intro s category type_tag priority topics hcat hty hp htop
    cases topics with
    | none => cases category <;> cases type_tag <;> cases priority <;>
        simp_all [validate_tags]
    | some ts =>
      have hck := checkTopics_ok s ts (htop ts rfl)
      cases category <;> cases type_tag <;> cases priority <;> simp_all [validate_tags]

/-- C7 witness: on the seed schema, a bad type with a valid category is
reported as the type failure with the full valid type list; the
first bad topic after valid ones is reported likewise. -/
theorem validate_tags_spec_witness :
    validate_tags seedDoc.tag_schema (some "work") (some "nonsense") (some "active") none =
      (false, invalidTypeMsg seedDoc.tag_schema "nonsense") ∧
    validate_tags seedDoc.tag_schema none none none (some (["mcp"] ++ "bogus" :: ["ai"])) =
      (false, invalidTopicMsg seedDoc.tag_schema "bogus") :=
  ⟨validate_tags_spec.2.2.1 seedDoc.tag_schema (some "work") "nonsense" (some "active") none
      (by decide) (by decide),
   validate_tags_spec.2.2.2.2.1 seedDoc.tag_schema none none none ["mcp"] "bogus" ["ai"]
      (by decide) (by decide) (by decide) (by decide) (by decide)⟩

/-- Schema dimension selected by its Python dict key (only the four
valid keys are ever used). -/
def dimGet (s : TagSchema) (dimension : String) : List String :=
  if dimension = "category" then s.category
  else if dimension = "type" then s.type
  else if dimension = "priority" then s.priority
  else s.topics

/-- C8: per-tag idempotency of `add_tags_to_schema` — on a valid
dimension, adding an already-present tag leaves the whole schema
unchanged; a fresh tag is appended at the end of that dimension; the
call returns the updated schema. -/
theorem add_tags_idempotent (d : Doc) (dimension t : String)
    (hdim : dimension ∈ ["category", "type", "priority", "topics"]) :
    (t ∈ dimGet d.tag_schema dimension →
      (add_tags_to_schema d dimension [t]).doc.tag_schema = d.tag_schema) ∧
    (t ∉ dimGet d.tag_schema dimension →
      dimGet (add_tags_to_schema d dimension [t]).doc.tag_schema dimension =
        dimGet d.tag_schema dimension ++ [t]) ∧
    (add_tags_to_schema d dimension [t]).result =
      .ok (add_tags_to_schema d dimension [t]).doc.tag_schema := by
  have h4 : dimension = "category" ∨ dimension = "type" ∨ dimension = "priority" ∨
      dimension = "topics" := by simpa using hdim
  rcases h4 with rfl | rfl | rfl | rfl <;>
    refine ⟨fun hmem => ?_, fun hmem => ?_, ?_⟩ <;>
    simp_all [add_tags_to_schema, addTagList, addTag, dimGet]

/-- C8 witness: on the seed schema, re-adding "mcp" to topics changes
nothing, while the topics dimension gains "rust" at the end. -/
theorem add_tags_idempotent_witness :
    (add_tags_to_schema seedDoc "topics" ["mcp"]).doc.tag_schema = seedDoc.tag_schema ∧
    dimGet (add_tags_to_schema seedDoc "topics" ["rust"]).doc.tag_schema "topics" =
      dimGet seedDoc.tag_schema "topics" ++ ["rust"] :=
  ⟨(add_tags_idempotent seedDoc "topics" "mcp" (by decide)).1 (by decide),
   (add_tags_idempotent seedDoc "topics" "rust" (by decide)).2.1 (by decide)⟩


/-- A concrete stored note used by several witnesses. -/
def sampleNote : Note :=
  { id := "n1", title := "t", content := "c"
    tags := { category := "work", type := "todo", priority := "active"
              topics := ["mcp", "ai"] }
    created := "2024-01-01T00:00:00Z", updated := "2024-01-01T00:00:00Z" }

/-- A concrete one-note document used by several witnesses. -/
def sampleDoc : Doc := { tag_schema := seedDoc.tag_schema, notes := [sampleNote] }

/-- C4: on a successful `update_note`, each provided field overwrites
the note's field and each omitted field keeps its previous value —
`topics` is replaced wholesale (so `some []` empties it while `none`
keeps it), `created` is untouched, the full updated note is returned,
and the stored document carries that note in place of the old one. -/
theorem update_note_success_fields (d : Doc) (note_id : String)
    (title content category type_tag priority : Option String)
    (topics : Option (List String)) (now : String) (u : Note)
    (hfind : d.notes.find? (fun n => n.id == note_id) = some u)
    (hval : (validate_tags d.tag_schema category type_tag priority topics).1 = true) :
    ∃ n', (update_note d note_id title content category type_tag priority topics now).result
        = .ok n' ∧
      (update_note d note_id title content category type_tag priority topics now).doc =
        { d with notes := replaceFirst d.notes note_id n' } ∧
      n'.id = u.id ∧
      n'.title = title.getD u.title ∧
      n'.content = content.getD u.content ∧
      n'.tags.category = category.getD u.tags.category ∧
      n'.tags.type = type_tag.getD u.tags.type ∧
      n'.tags.priority = priority.getD u.tags.priority ∧
      n'.tags.topics = topics.getD u.tags.topics ∧
      n'.created = u.created ∧
      n'.updated = now := by
  refine ⟨{ id := u.id
            title := title.getD u.title
            content := content.getD u.content
            tags := { category := category.getD u.tags.category
                      type := type_tag.getD u.tags.type
                      priority := priority.getD u.tags.priority
                      topics := topics.getD u.tags.topics }
            created := u.created
            updated := now },
          ?_, ?_, rfl, rfl, rfl, rfl, rfl, rfl, rfl, rfl, rfl⟩ <;>
    simp [update_note, hfind, hval]

/-- C4 witness: updating only topics to `[]` empties them while every
omitted field keeps its old value and `created` is untouched. -/
theorem update_note_success_fields_witness :
    ∃ n', (update_note sampleDoc "n1" none none none none none (some [])
        "2024-01-02T00:00:00Z").result = .ok n' ∧
      (update_note sampleDoc "n1" none none none none none (some [])
        "2024-01-02T00:00:00Z").doc =
        { sampleDoc with notes := replaceFirst sampleDoc.notes "n1" n' } ∧
      n'.id = sampleNote.id ∧
      n'.title = (none : Option String).getD sampleNote.title ∧
      n'.content = (none : Option String).getD sampleNote.content ∧
      n'.tags.category = (none : Option String).getD sampleNote.tags.category ∧
      n'.tags.type = (none : Option String).getD sampleNote.tags.type ∧
      n'.tags.priority = (none : Option String).getD sampleNote.tags.priority ∧
      n'.tags.topics = (some ([] : List String)).getD sampleNote.tags.topics ∧
      n'.created = sampleNote.created ∧
      n'.updated = "2024-01-02T00:00:00Z" :=
  update_note_success_fields sampleDoc "n1" none none none none none (some [])
    "2024-01-02T00:00:00Z" sampleNote (by decide) rfl

/-- C5: immediately after `create_note` the note has `created =
updated`; a successful `update_note` whose current instant is later
than the note's previous `updated` stamp strictly increases `updated`
(lexically) and never changes `created`. -/
theorem timestamp_discipline :
    (∀ (d : Doc) (title content category type_tag priority : String)
        (topics : Option (List String)) (uuid now : String) (n : Note),
      (create_note d title content category type_tag priority topics uuid now).result =
        .ok n →
      n.created = n.updated) ∧
    (∀ (d : Doc) (note_id : String)
        (title content category type_tag priority : Option String)
        (topics : Option (List String)) (now : String) (u n : Note),
      d.notes.find? (fun x => x.id == note_id) = some u →
      (update_note d note_id title content category type_tag priority topics now).result =
        .ok n →
      u.updated < now →
      u.updated < n.updated ∧ n.created = u.created) := by
  constructor
  · intro d title content category type_tag priority topics uuid now n h
    by_cases hv :
        (validate_tags d.tag_schema (some category) (some type_tag) (some priority) topics).1
    · simp [create_note, hv] at h
      simp [← h]
    · simp [create_note, hv] at h
  · intro d note_id title content category type_tag priority topics now u n hfind h hlt
    by_cases hv : (validate_tags d.tag_schema category type_tag priority topics).1
    · simp [update_note, hfind, hv] at h
      simp [← h, hlt]
    · simp [update_note, hfind, hv] at h

/-- C5 witness: concrete creation has equal stamps; a later concrete
update strictly raises `updated` and preserves `created`. -/
theorem timestamp_discipline_witness :
    (∃ n : Note,
      (create_note seedDoc "t" "c" "work" "todo" "active" (some ["mcp"]) "id1"
        "2024-01-01T00:00:00Z").result = .ok n ∧ n.created = n.updated) ∧
    (∃ n : Note,
      (update_note sampleDoc "n1" (some "t2") none none none none none
        "2024-01-02T00:00:00Z").result = .ok n ∧
      sampleNote.updated < n.updated ∧ n.created = sampleNote.created) := by
  constructor
  · exact ⟨_, rfl,
      timestamp_discipline.1 seedDoc "t" "c" "work" "todo" "active" (some ["mcp"]) "id1"
        "2024-01-01T00:00:00Z" _ rfl⟩
  · exact ⟨_, rfl,
      timestamp_discipline.2 sampleDoc "n1" (some "t2") none none none none none
        "2024-01-02T00:00:00Z" sampleNote _ (by decide) rfl
        (by rw [show sampleNote.updated = "2024-01-01T00:00:00Z" from rfl,
                String.lt_iff_toList_lt]
            decide)⟩

theorem checkTopics_true_iff (s : TagSchema) (ts : List String) :
    (checkTopics s ts).1 = true ↔ ∀ x ∈ ts, x ∈ s.topics := by
  induction ts with
  | nil => simp [checkTopics]
  | cons t rest ih => by_cases ht : t ∈ s.topics <;> simp [checkTopics, ht, ih]

theorem validate_tags_true_iff (s : TagSchema) (category type_tag priority : Option String)
    (topics : Option (List String)) :
    (validate_tags s category type_tag priority topics).1 = true ↔
      (∀ c ∈ category, c ∈ s.category) ∧ (∀ t ∈ type_tag, t ∈ s.type) ∧
      (∀ p ∈ priority, p ∈ s.priority) ∧ (∀ ts ∈ topics, ∀ x ∈ ts, x ∈ s.topics) := by
  cases category <;> cases type_tag <;> cases priority <;> cases topics <;>
    simp only [validate_tags] <;>
    (try split_ifs) <;>
    simp_all [checkTopics_true_iff]

theorem mem_addTagList (xs tags : List String) (x : String) (h : x ∈ xs) :
    x ∈ addTagList xs tags := by
  induction tags generalizing xs with
  | nil => exact h
  | cons t rest ih =>
    simp only [addTagList, List.foldl_cons]
    apply ih
    unfold addTag
    split
    · exact h
    · exact List.mem_append_left _ h

theorem mem_replaceFirst (ns : List Note) (note_id : String) (n' m : Note)
    (h : m ∈ replaceFirst ns note_id n') : m ∈ ns ∨ m = n' := by
  induction ns with
  | nil => simp [replaceFirst] at h
  | cons a rest ih =>
    by_cases hid : a.id == note_id
    · simp only [replaceFirst, hid, if_true, List.mem_cons] at h
      rcases h with h | h
      · exact Or.inr h
      · exact Or.inl (List.mem_cons_of_mem _ h)
    · simp only [replaceFirst, hid, Bool.false_eq_true, if_false, List.mem_cons] at h
      rcases h with h | h
      · exact Or.inl (h ▸ List.mem_cons_self _ _)
      · rcases ih h with h2 | h2
        · exact Or.inl (List.mem_cons_of_mem _ h2)
        · exact Or.inr h2

theorem mem_removeFirst (ns : List Note) (note_id : String) (m : Note)
    (h : m ∈ removeFirst ns note_id) : m ∈ ns := by
  induction ns with
  | nil => simp [removeFirst] at h
  | cons a rest ih =>
    by_cases hid : a.id == note_id
    · simp only [removeFirst, hid, if_true] at h
      exact List.mem_cons_of_mem _ h
    · simp only [removeFirst, hid, Bool.false_eq_true, if_false, List.mem_cons] at h
      rcases h with h | h
      · exact h ▸ List.mem_cons_self _ _
      · exact List.mem_cons_of_mem _ (ih h)

/-- C1: schema membership is invariant — in every document reachable
from the seed document by any sequence of `create_note`, `update_note`,
`delete_note` and `add_tags_to_schema` calls, every stored note's
category, type and priority lie in the schema's corresponding dimension
and every one of its topics lies in the schema's topics dimension. -/
theorem reach_schema_membership (d : Doc) (h : Reach d) : NotesValid d := by
  induction h with
  | seed => intro n hn; simp [seedDoc] at hn
  | create d title content category type_tag priority topics uuid now _ ih =>
    by_cases hv : (validate_tags d.tag_schema (some category) (some type_tag)
        (some priority) topics).1
    · have hs := (validate_tags_true_iff d.tag_schema (some category) (some type_tag)
        (some priority) topics).mp hv
      simp only [create_note, hv, if_true]
      intro n hn
      simp only [List.mem_append, List.mem_singleton] at hn
      rcases hn with hn | rfl
      · exact ih n hn
      · refine ⟨hs.1 category rfl, hs.2.1 type_tag rfl, hs.2.2.1 priority rfl, ?_⟩
        cases topics with
        | none => intro t ht; simp at ht
        | some ts => exact fun t ht => hs.2.2.2 ts rfl t ht
    · simpa [create_note, hv] using ih
  | update d note_id title content category type_tag priority topics now _ ih =>
    cases hf : d.notes.find? (fun n => n.id == note_id) with
    | none => simpa [update_note, hf] using ih
    | some note =>
      by_cases hv : (validate_tags d.tag_schema category type_tag priority topics).1
      · have hs := (validate_tags_true_iff d.tag_schema category type_tag priority topics).mp hv
        have hold := ih note (List.mem_of_find?_eq_some hf)
        simp only [update_note, hf, hv, if_true]
        intro m hm
        rcases mem_replaceFirst _ _ _ _ hm with hm2 | rfl
        · exact ih m hm2
        · refine ⟨?_, ?_, ?_, ?_⟩
          · cases category with
            | none => exact hold.1
            | some c => exact hs.1 c rfl
          · cases type_tag with
            | none => exact hold.2.1
            | some t => exact hs.2.1 t rfl
          · cases priority with
            | none => exact hold.2.2.1
            | some p => exact hs.2.2.1 p rfl
          · cases topics with
            | none => exact hold.2.2.2
            | some ts => exact fun t ht => hs.2.2.2 ts rfl t ht
      · simpa [update_note, hf, hv] using ih
  | del d note_id _ ih =>
    by_cases hc : d.notes.any (fun n => n.id == note_id)
    · simp only [delete_note, hc, if_true]
      intro m hm
      exact ih m (mem_removeFirst _ _ _ hm)
    · simpa [delete_note, hc] using ih
  | addTags d dimension tags _ ih =>
    by_cases hdim : dimension ∈ ["category", "type", "priority", "topics"]
    · have h4 : dimension = "category" ∨ dimension = "type" ∨ dimension = "priority" ∨
          dimension = "topics" := by simpa using hdim
      rcases h4 with rfl | rfl | rfl | rfl
      · simp only [add_tags_to_schema]
        intro m hm
        simp only [List.mem_cons, List.not_mem_nil, or_false] at hm ⊢
        obtain ⟨h1, h2, h3, h4t⟩ := ih m (by simpa using hm)
        exact ⟨mem_addTagList _ _ _ h1, h2, h3, h4t⟩
      · simp only [add_tags_to_schema]
        intro m hm
        obtain ⟨h1, h2, h3, h4t⟩ := ih m (by simpa using hm)
        exact ⟨h1, mem_addTagList _ _ _ h2, h3, h4t⟩
      · simp only [add_tags_to_schema]
        intro m hm
        obtain ⟨h1, h2, h3, h4t⟩ := ih m (by simpa using hm)
        exact ⟨h1, h2, mem_addTagList _ _ _ h3, h4t⟩
      · simp only [add_tags_to_schema]
        intro m hm
        obtain ⟨h1, h2, h3, h4t⟩ := ih m (by simpa using hm)
        exact ⟨h1, h2, h3, fun t ht => mem_addTagList _ _ _ (h4t t ht)⟩
    · simpa [add_tags_to_schema, hdim] using ih

theorem lookup_cons (a k : String) (b : Nat) (rest : List (String × Nat)) :
    List.lookup k ((a, b) :: rest) = if a = k then some b else List.lookup k rest := by
  by_cases h : a = k
  · subst h; simp [List.lookup]
  · have hb : (k == a) = false := by simp [Ne.symm h]
    simp [List.lookup, hb, h]

theorem lookup_map_self (m : List (String × Nat)) (k : String) :
    (m.map (fun p => if p.1 == k then (p.1, p.2 + 1) else p)).lookup k =
      (m.lookup k).map (· + 1) := by
  induction m with
  | nil => simp
  | cons q rest ih =>
    obtain ⟨a, b⟩ := q
    simp only [List.map_cons]
    by_cases hak : a = k
    · subst hak
      simp only [beq_self_eq_true, if_true]
      rw [lookup_cons, lookup_cons]
      simp
    · have hb : (a == k) = false := by simp [hak]
      simp only [hb, Bool.false_eq_true, if_false]
      rw [lookup_cons, lookup_cons]
      simp only [hak, if_false]
      simpa using ih

theorem lookup_map_other (m : List (String × Nat)) (k k' : String) (hne : k' ≠ k) :
    (m.map (fun p => if p.1 == k then (p.1, p.2 + 1) else p)).lookup k' =
      m.lookup k' := by
  induction m with
  | nil => simp
  | cons q rest ih =>
    obtain ⟨a, b⟩ := q
    simp only [List.map_cons]
    by_cases hak : a = k
    · subst hak
      simp only [beq_self_eq_true, if_true]
      rw [lookup_cons, lookup_cons]
      simp only [Ne.symm hne, if_false]
      simpa using ih
    · have hb : (a == k) = false := by simp [hak]
      simp only [hb, Bool.false_eq_true, if_false]
      rw [lookup_cons, lookup_cons]
      by_cases hak' : a = k'
      · simp [hak']
      · simp only [hak', if_false]
        simpa using ih

theorem lookup_eq_none_of_not_any (m : List (String × Nat)) (k : String)
    (h : m.any (fun p => p.1 == k) = false) : m.lookup k = none := by
  induction m with
  | nil => simp
  | cons q rest ih =>
    obtain ⟨a, b⟩ := q
    simp only [List.any_cons, Bool.or_eq_false_iff] at h
    have hak : ¬a = k := by simpa using h.1
    rw [lookup_cons]
    simp [hak, ih h.2]

theorem lookup_isSome_of_any (m : List (String × Nat)) (k : String)
    (h : m.any (fun p => p.1 == k) = true) : ∃ v, m.lookup k = some v := by
  induction m with
  | nil => simp at h
  | cons q rest ih =>
    obtain ⟨a, b⟩ := q
    rw [lookup_cons]
    by_cases hak : a = k
    · exact ⟨b, by simp [hak]⟩
    · simp only [List.any_cons, Bool.or_eq_true] at h
      rcases h with h | h
      · exact absurd (by simpa using h) hak
      · obtain ⟨v, hv⟩ := ih h
        exact ⟨v, by simp [hak, hv]⟩

theorem lookup_append_single_self (m : List (String × Nat)) (k : String)
    (h : m.lookup k = none) : (m ++ [(k, 1)]).lookup k = some 1 := by
  induction m with
  | nil => simp [lookup_cons]
  | cons q rest ih =>
    obtain ⟨a, b⟩ := q
    rw [lookup_cons] at h
    simp only [List.cons_append]
    rw [lookup_cons]
    by_cases hak : a = k
    · simp [hak] at h
    · simp only [hak, if_false] at h ⊢
      exact ih h

theorem lookup_append_single_other (m : List (String × Nat)) (k k' : String)
    (hne : k' ≠ k) : (m ++ [(k, 1)]).lookup k' = m.lookup k' := by
  induction m with
  | nil => simp [lookup_cons, Ne.symm hne]
  | cons q rest ih =>
    obtain ⟨a, b⟩ := q
    simp only [List.cons_append]
    rw [lookup_cons, lookup_cons]
    by_cases hak : a = k' <;> simp [hak, ih]

theorem lookup_bump_self (m : List (String × Nat)) (k : String) :
    (bump m k).lookup k = some ((m.lookup k).getD 0 + 1) := by
  unfold bump
  by_cases hany : m.any (fun p => p.1 == k)
  · simp only [hany, if_true, lookup_map_self]
    obtain ⟨v, hv⟩ := lookup_isSome_of_any m k hany
    simp [hv]
  · have hfalse : m.any (fun p => p.1 == k) = false := Bool.eq_false_iff.mpr hany
    have hnone := lookup_eq_none_of_not_any m k hfalse
    simp only [hany, Bool.false_eq_true, if_false]
    rw [lookup_append_single_self m k hnone, hnone]
    simp

theorem lookup_bump_other (m : List (String × Nat)) (k k' : String) (hne : k' ≠ k) :
    (bump m k).lookup k' = m.lookup k' := by
  unfold bump
  by_cases hany : m.any (fun p => p.1 == k)
  · simp only [hany, if_true]
    exact lookup_map_other m k k' hne
  · simp only [hany, Bool.false_eq_true, if_false]
    exact lookup_append_single_other m k k' hne

theorem lookup_foldl_bump (ts : List String) (m : List (String × Nat)) (k : String) :
    (ts.foldl bump m).lookup k =
      if ts.count k = 0 then m.lookup k
      else some ((m.lookup k).getD 0 + ts.count k) := by
  induction ts generalizing m with
  | nil => simp
  | cons t rest ih =>
    simp only [List.foldl_cons]
    rw [ih]
    by_cases htk : t = k
    · subst htk
      rw [lookup_bump_self]
      simp only [List.count_cons_self]
      by_cases hc : rest.count t = 0
      · simp [hc]
      · have h1 : rest.count t + 1 ≠ 0 := by omega
        simp only [hc, if_false, h1, Option.getD_some]
        have h2 : (m.lookup t).getD 0 + 1 + rest.count t =
            (m.lookup t).getD 0 + (rest.count t + 1) := by omega
        rw [h2]
    · have hne : k ≠ t := Ne.symm htk
      rw [lookup_bump_other m t k hne]
      simp [List.count_cons, htk]

theorem list_tags_fold_category (notes : List Note) (acc : TagCounts) :
    (notes.foldl (fun acc n =>
        { category := bump acc.category n.tags.category
          type := bump acc.type n.tags.type
          priority := bump acc.priority n.tags.priority
          topics := n.tags.topics.foldl bump acc.topics }) acc).category =
      notes.foldl (fun m n => bump m n.tags.category) acc.category := by
  induction notes generalizing acc with
  | nil => rfl
  | cons n rest ih => simp [List.foldl_cons, ih]

theorem list_tags_fold_type (notes : List Note) (acc : TagCounts) :
    (notes.foldl (fun acc n =>
        { category := bump acc.category n.tags.category
          type := bump acc.type n.tags.type
          priority := bump acc.priority n.tags.priority
          topics := n.tags.topics.foldl bump acc.topics }) acc).type =
      notes.foldl (fun m n => bump m n.tags.type) acc.type := by
  induction notes generalizing acc with
  | nil => rfl
  | cons n rest ih => simp [List.foldl_cons, ih]

theorem list_tags_fold_priority (notes : List Note) (acc : TagCounts) :
    (notes.foldl (fun acc n =>
        { category := bump acc.category n.tags.category
          type := bump acc.type n.tags.type
          priority := bump acc.priority n.tags.priority
          topics := n.tags.topics.foldl bump acc.topics }) acc).priority =
      notes.foldl (fun m n => bump m n.tags.priority) acc.priority := by
  induction notes generalizing acc with
  | nil => rfl
  | cons n rest ih => simp [List.foldl_cons, ih]

theorem list_tags_fold_topics (notes : List Note) (acc : TagCounts) :
    (notes.foldl (fun acc n =>
        { category := bump acc.category n.tags.category
          type := bump acc.type n.tags.type
          priority := bump acc.priority n.tags.priority
          topics := n.tags.topics.foldl bump acc.topics }) acc).topics =
      notes.foldl (fun m n => n.tags.topics.foldl bump m) acc.topics := by
  induction notes generalizing acc with
  | nil => rfl
  | cons n rest ih => simp [List.foldl_cons, ih]

theorem foldl_bump_flat (notes : List Note) (m0 : List (String × Nat)) :
    notes.foldl (fun m n => n.tags.topics.foldl bump m) m0 =
      (notes.flatMap (fun n => n.tags.topics)).foldl bump m0 := by
  induction notes generalizing m0 with
  | nil => rfl
  | cons n rest ih => simp [List.flatMap_cons, List.foldl_append, ih]

/-- C9: `list_tags` is a usage histogram — per dimension, a lookup
returns the number of notes carrying the tag value and is absent
(`none`) exactly when no note uses it; for topics every occurrence
across all notes' topic sequences counts independently. -/
theorem list_tags_histogram (d : Doc) (k : String) :
    ((list_tags d).category.lookup k =
      if d.notes.countP (fun n => n.tags.category == k) = 0 then none
      else some (d.notes.countP (fun n => n.tags.category == k))) ∧
    ((list_tags d).type.lookup k =
      if d.notes.countP (fun n => n.tags.type == k) = 0 then none
      else some (d.notes.countP (fun n => n.tags.type == k))) ∧
    ((list_tags d).priority.lookup k =
      if d.notes.countP (fun n => n.tags.priority == k) = 0 then none
      else some (d.notes.countP (fun n => n.tags.priority == k))) ∧
    ((list_tags d).topics.lookup k =
      if (d.notes.flatMap (fun n => n.tags.topics)).count k = 0 then none
      else some ((d.notes.flatMap (fun n => n.tags.topics)).count k)) := by
  refine ⟨?_, ?_, ?_, ?_⟩
  · simp only [list_tags, list_tags_fold_category]
    rw [← List.foldl_map, lookup_foldl_bump]
    simp [List.count_eq_countP, List.countP_map, Function.comp]
    rfl
  · simp only [list_tags, list_tags_fold_type]
    rw [← List.foldl_map, lookup_foldl_bump]
    simp [List.count_eq_countP, List.countP_map, Function.comp]
    rfl
  · simp only [list_tags, list_tags_fold_priority]
    rw [← List.foldl_map, lookup_foldl_bump]
    simp [List.count_eq_countP, List.countP_map, Function.comp]
    rfl
  · simp only [list_tags, list_tags_fold_topics]
    rw [foldl_bump_flat, lookup_foldl_bump]
    simp

/-- C1 witness: the invariant holds at a concrete reachable document,
obtained by one schema extension and one creation from the seed. -/
theorem reach_schema_membership_witness :
    NotesValid (create_note (add_tags_to_schema seedDoc "topics" ["rust"]).doc
      "t" "c" "work" "todo" "active" (some ["rust"]) "id1" "2024-01-01T00:00:00Z").doc :=
  reach_schema_membership _
    (Reach.create _ "t" "c" "work" "todo" "active" (some ["rust"]) "id1"
      "2024-01-01T00:00:00Z"
      (Reach.addTags seedDoc "topics" ["rust"] Reach.seed))
